import Mathlib

/-
Verification of the host-side compute-dispatch engine and the adaptive
brute-force search engine of the vulkan-compute-playground repository.

The development shallowly embeds the host-side logic of src/miner.cpp and
src/vc.cpp (with the queue-family selection of src/main.cpp) into Lean:
machine integers are Nat with explicit `% 2 ^ 32` where 32-bit wrap-around
matters, Vulkan handles are opaque Nat tokens with 0 standing for
VK_NULL_HANDLE, and the device-side kernel (out of scope for the host
contract) is modelled as an oracle giving each batch's result-slot value.
-/

/- ------------------------------------------------------------------ -/
/- Definitions                                                        -/
/- ------------------------------------------------------------------ -/

/-- Modulus of a 32-bit unsigned machine integer. -/
def U32Mod : Nat := 2 ^ 32

/-- The all-ones 32-bit value `~0u`, used both as the "no winner" result
sentinel (miner.cpp) and as the "none found" index sentinel (vc.cpp). -/
def sentinelU32 : Nat := U32Mod - 1

/-- Per-dispatch workload, `Miner::BatchSize` (miner.cpp:26). -/
def BatchSize : Nat := 65536

/-- Kernel work-group width, `Miner::LocalSize` (miner.cpp:27). -/
def LocalSize : Nat := 256

/-- Width in characters of the nonce field, `Miner::NonceSize` (miner.cpp:28). -/
def NonceSize : Nat := 8

/-- Starting threshold of the run, `minLeadingZeros = 16` (miner.cpp:90). -/
def initialMinLeadingZeros : Nat := 16

/-- Number of loop iterations of `Miner::search`,
`(uint64_t(1) << 32) / BatchSize` (miner.cpp:91). -/
def batchCount : Nat := U32Mod / BatchSize

/-- Work-group count per dispatch,
`(BatchSize + LocalSize - 1) / LocalSize` (miner.cpp:98). -/
def groupCount : Nat := (BatchSize + LocalSize - 1) / LocalSize

/-- The 16-symbol hexadecimal charset local to `Miner::dumpResult`
(miner.cpp:122-123), as byte values. -/
def dumpCharset : List Nat :=
  [0x30, 0x31, 0x32, 0x33, 0x34, 0x35, 0x36, 0x37,
   0x38, 0x39, 0x41, 0x42, 0x43, 0x44, 0x45, 0x46]

/-- Character `i` of the nonce field:
`Charset[(nonceIndex >> (4 * i)) & 0xf]` (miner.cpp:129). -/
def nonceChar (nonceIndex i : Nat) : Nat :=
  dumpCharset.getD ((nonceIndex >>> (4 * i)) &&& 15) 0

/-- The eight nonce characters appended by `Miner::dumpResult`
(miner.cpp:127-130). -/
def nonceChars (nonceIndex : Nat) : List Nat :=
  (List.range NonceSize).map (nonceChar nonceIndex)

/-- The candidate message rebuilt on the host by `Miner::dumpResult`
(miner.cpp:124-130): the search's prefix bytes followed by the nonce. -/
def dumpMessage (pre : List Nat) (nonceIndex : Nat) : List Nat :=
  pre ++ nonceChars nonceIndex

/-- Recover the nibble a nonce character encodes (position of the byte in
the hexadecimal charset). -/
def hexVal (c : Nat) : Nat := dumpCharset.indexOf c

/-- Value of a little-endian base-16 digit list. -/
def ofNibbles : List Nat → Nat
  | [] => 0
  | d :: ds => d + 16 * ofNibbles ds

/-- The `w` low-order base-16 digits of `n`, least significant first. -/
def nibbleList : Nat → Nat → List Nat
  | 0, _ => []
  | w + 1, n => n % 16 :: nibbleList w (n / 16)

/-- Recover a nonce index from the nonce characters of a message. -/
def recoverNonce (chars : List Nat) : Nat := ofNibbles (chars.map hexVal)

/-- The 64-byte padded message block built by `Miner::search`
(miner.cpp:72-79) on the little-endian host the code assumes: the prefix
bytes, an 8-byte zero nonce placeholder, a 0x80 padding byte at index
`prefix.size + NonceSize`, zeros up to byte 63. -/
def msgBytes (pre : List Nat) : List Nat :=
  (pre ++ List.replicate (64 - pre.length) 0).set (pre.length + NonceSize) 0x80

/-- Big-endian 32-bit word `i` of a byte list: the value
`__builtin_bswap32` leaves in place after the little-endian store of the
bytes (miner.cpp:80-81). -/
def beWord (bytes : List Nat) (i : Nat) : Nat :=
  bytes.getD (4 * i) 0 * 2 ^ 24 + bytes.getD (4 * i + 1) 0 * 2 ^ 16 +
    bytes.getD (4 * i + 2) 0 * 2 ^ 8 + bytes.getD (4 * i + 3) 0

/-- Little-endian 32-bit word `i` of a byte list; word 14 keeps this form
because the byte-swap loop of miner.cpp:80 stops at `i < 14`. -/
def leWord (bytes : List Nat) (i : Nat) : Nat :=
  bytes.getD (4 * i) 0 + bytes.getD (4 * i + 1) 0 * 2 ^ 8 +
    bytes.getD (4 * i + 2) 0 * 2 ^ 16 + bytes.getD (4 * i + 3) 0 * 2 ^ 24

/-- The 16 fixed message words written once before the batch loop
(miner.cpp:72-83): words 0-13 byte-swapped, word 14 untouched, word 15 the
bit length `messageSize * 8` (miner.cpp:82). -/
def msgWords (pre : List Nat) : List Nat :=
  (List.range 14).map (beWord (msgBytes pre)) ++
    [leWord (msgBytes pre) 14, (pre.length + NonceSize) * 8]

/-- Host-visible input region layout, `Miner::Input` (miner.cpp:32-38), in
declaration order; `msgPrefixWords` models the `messagePrefix[16]` array. -/
structure MinerInput where
  minLeadingZeros : Nat
  nonceIndexBase : Nat
  prefixSize : Nat
  msgPrefixWords : List Nat

/-- The input region as the sequence of 32-bit words the kernel reads, in
the declaration order of `Miner::Input`. -/
def MinerInput.words (inp : MinerInput) : List Nat :=
  inp.minLeadingZeros :: inp.nonceIndexBase :: inp.prefixSize :: inp.msgPrefixWords

/-- One iteration of the search-loop state (threshold, nonce-index base),
miner.cpp:93-109.  The device-side kernel is an external collaborator, so it
is an oracle here: `res` is the value the batch leaves in the result slot
(`none` models the untouched `~0u` sentinel) and `quality idx` is the
leading-zero count `Miner::dumpResult` computes on the host for nonce index
`idx` (the SHA-256 library behind it is likewise external).  The threshold
update is the unconditional `minLeadingZeros = leadingZeros + 1` of
miner.cpp:106; the debug-build `assert` of miner.cpp:105 is modelled
separately by `collectStep`. -/
def searchStep (quality : Nat → Nat) (res : Option Nat) (s : Nat × Nat) : Nat × Nat :=
  match res with
  | some idx => (quality idx + 1, (s.2 + BatchSize) % U32Mod)
  | none => (s.1, (s.2 + BatchSize) % U32Mod)

/-- State before batch `n` of `Miner::search`: the threshold starts at 16
and the nonce-index base at 0 (miner.cpp:89-90). -/
def searchState (quality : Nat → Nat) (results : Nat → Option Nat) : Nat → Nat × Nat
  | 0 => (initialMinLeadingZeros, 0)
  | n + 1 => searchStep quality (results n) (searchState quality results n)

/-- Threshold written into the input region for batch `n` (miner.cpp:93). -/
def thresholdAt (quality : Nat → Nat) (results : Nat → Option Nat) (n : Nat) : Nat :=
  (searchState quality results n).1

/-- Nonce-index base written into the input region for batch `n`
(miner.cpp:94). -/
def baseAt (quality : Nat → Nat) (results : Nat → Option Nat) (n : Nat) : Nat :=
  (searchState quality results n).2

/-- The full input region written before dispatching batch `n`
(miner.cpp:83-84 for the fixed words, miner.cpp:93-94 per batch). -/
def inputAt (pre : List Nat) (quality : Nat → Nat) (results : Nat → Option Nat)
    (n : Nat) : MinerInput :=
  { minLeadingZeros := thresholdAt quality results n
    nonceIndexBase := baseAt quality results n
    prefixSize := pre.length
    msgPrefixWords := msgWords pre }

/-- Value written into the result slot before each dispatch,
`m_result->nonceIndex = ~0u` (miner.cpp:96). -/
def resultReset : Nat := sentinelU32

/-- Group counts passed to `m_program.dispatch(groupCount, 1, 1)`
(miner.cpp:98-99). -/
def dispatchGroups : Nat × Nat × Nat := (groupCount, 1, 1)

/-- Outcome of the collect phase of one batch (miner.cpp:102-107):
either the loop continues with a new threshold or the `assert` aborts. -/
inductive CollectOutcome where
  | ok : Nat → CollectOutcome
  | assertFailed : CollectOutcome
  deriving DecidableEq

/-- The collect phase of one batch (miner.cpp:102-107) with the build
configuration made explicit: `assertActive` is true exactly when `NDEBUG`
is not defined, in which case `assert(leadingZeros >= minLeadingZeros)`
(miner.cpp:105) aborts on a below-threshold verified quality; under
`NDEBUG` the assert expands to nothing and the threshold is updated
regardless. -/
def collectStep (assertActive : Bool) (quality : Nat → Nat) (threshold : Nat)
    (res : Option Nat) : CollectOutcome :=
  match res with
  | none => .ok threshold
  | some idx =>
    if assertActive && decide (quality idx < threshold) then .assertFailed
    else .ok (quality idx + 1)

/-- Generic first-match index search: the `std::find_if` plus
`std::distance` pattern of vc.cpp:256-264 and main.cpp:46-61. -/
def findFirst {α : Type} (p : α → Bool) : List α → Option Nat
  | [] => none
  | x :: xs => if p x then some 0 else (findFirst p xs).map (· + 1)

/-- VK_QUEUE_GRAPHICS_BIT. -/
def QueueGraphicsBit : Nat := 1

/-- VK_QUEUE_COMPUTE_BIT. -/
def QueueComputeBit : Nat := 2

/-- Queue-family predicate of `findComputeQueueFamily` (vc.cpp:257-260):
any family whose flags include the compute bit. -/
def hasComputeBit (flags : Nat) : Bool := (flags &&& QueueComputeBit) != 0

/-- Queue-family predicate of the first pass of `getBestComputeQueue`
(main.cpp:46-49): compute set and graphics clear. -/
def computeOnlyBit (flags : Nat) : Bool :=
  ((flags &&& QueueGraphicsBit) == 0) && ((flags &&& QueueComputeBit) != 0)

/-- `findComputeQueueFamily` (vc.cpp:248-265): the index of the first
family whose flags include the compute bit, regardless of graphics, else
the `~0u` sentinel. -/
def findComputeQueueFamily (families : List Nat) : Nat :=
  match findFirst hasComputeBit families with
  | some i => i
  | none => sentinelU32

/-- `getBestComputeQueue` (main.cpp:37-64): prefer a family with compute
and no graphics, else the first family with compute, else none. -/
def getBestComputeQueue (families : List Nat) : Option Nat :=
  match findFirst computeOnlyBit families with
  | some i => some i
  | none => findFirst hasComputeBit families

/-- Modelled from the spec: the queue-family selection rule exactly as
claim C4 states it for ExecutionContext construction (prefer a
compute-but-not-graphics family, else the first compute family, else the
`~0u` sentinel), kept separate so it can be compared with what
`Device::Device` actually calls. -/
def claimedQueueFamilyChoice (families : List Nat) : Nat :=
  match findFirst computeOnlyBit families with
  | some i => i
  | none =>
    match findFirst hasComputeBit families with
    | some i => i
    | none => sentinelU32

/-- Handle members of a `vc::Device` (vc.cpp:79-85).  Handles are opaque
nonzero tokens, 0 standing for VK_NULL_HANDLE. -/
structure ExecutionContext where
  queueFamilyIndex : Nat
  device : Nat
  commandPool : Nat
  commandBuffer : Nat
  computeQueue : Nat

/-- `Device::Device` (vc.cpp:427-474): when `findComputeQueueFamily`
returns the sentinel nothing is created and every handle member keeps its
VK_NULL_HANDLE default; otherwise the logical device, command pool,
command buffer and queue are created. -/
def mkDevice (families : List Nat) : ExecutionContext :=
  let idx := findComputeQueueFamily families
  if idx ≠ sentinelU32 then
    { queueFamilyIndex := idx, device := 1, commandPool := 2,
      commandBuffer := 3, computeQueue := 4 }
  else
    { queueFamilyIndex := idx, device := 0, commandPool := 0,
      commandBuffer := 0, computeQueue := 0 }

/-- VK_MEMORY_PROPERTY_HOST_VISIBLE_BIT. -/
def MemoryHostVisibleBit : Nat := 1

/-- VK_MEMORY_PROPERTY_HOST_COHERENT_BIT. -/
def MemoryHostCoherentBit : Nat := 2

/-- One entry of the VkPhysicalDeviceMemoryProperties memory-type table. -/
structure MemoryType where
  propertyFlags : Nat
  heapIndex : Nat

/-- The acceptance test of `Device::findHostVisibleMemory`
(vc.cpp:512-518): host-visible and host-coherent flags, and a backing heap
at least as large as the request (`size <= heap.size`, so an exact-fit
heap is accepted). -/
def memoryTypeFits (heapSizes : List Nat) (size : Nat) (t : MemoryType) : Bool :=
  ((t.propertyFlags &&& MemoryHostVisibleBit) != 0) &&
    ((t.propertyFlags &&& MemoryHostCoherentBit) != 0) &&
    decide (size ≤ heapSizes.getD t.heapIndex 0)

/-- `Device::findHostVisibleMemory` (vc.cpp:505-523): index of the first
memory type in table order that fits, else the `~0u` sentinel. -/
def findHostVisibleMemory (types : List MemoryType) (heapSizes : List Nat)
    (size : Nat) : Nat :=
  match findFirst (memoryTypeFits heapSizes size) types with
  | some i => i
  | none => sentinelU32

/-- Handle state of a freshly constructed `vc::Buffer` (vc.cpp:109-112). -/
structure BufferState where
  size : Nat
  deviceMemory : Nat
  buffer : Nat
  deriving DecidableEq

/-- Result of running `Buffer::Buffer`: either the constructor returns a
buffer, or a failing Vulkan call makes VK_CHECK terminate the process. -/
inductive CtorOutcome where
  | ok : BufferState → CtorOutcome
  | fatalExit : CtorOutcome
  deriving DecidableEq

/-- `Buffer::Buffer` (vc.cpp:355-381): when the memory-type search
succeeds, the three Vulkan calls run and each may fail fatally through
VK_CHECK (the oracles `allocOk`, `createOk`, `bindOk` model their status);
when the search returns the sentinel the body is skipped entirely and both
handles keep their VK_NULL_HANDLE defaults. -/
def mkBuffer (types : List MemoryType) (heapSizes : List Nat) (size : Nat)
    (allocOk createOk bindOk : Bool) : CtorOutcome :=
  if findHostVisibleMemory types heapSizes size ≠ sentinelU32 then
    if allocOk then
      if createOk then
        if bindOk then CtorOutcome.ok { size := size, deviceMemory := 1, buffer := 2 }
        else CtorOutcome.fatalExit
      else CtorOutcome.fatalExit
    else CtorOutcome.fatalExit
  else CtorOutcome.ok { size := size, deviceMemory := 0, buffer := 0 }

/-- Ownership-relevant fields of a `vc::Buffer` (vc.cpp:109-112),
including the device pointer (0 models nullptr). -/
structure Buf where
  device : Nat
  size : Nat
  deviceMemory : Nat
  buffer : Nat
  deriving DecidableEq

/-- The state the `std::exchange` calls leave in a moved-from buffer
(vc.cpp:392-398): null device pointer, zero size, null handles. -/
def inertBuf : Buf := { device := 0, size := 0, deviceMemory := 0, buffer := 0 }

/-- `Buffer::Buffer(Buffer &&)` (vc.cpp:392-398): the pair (constructed
object, moved-from source). -/
def bufMoveCtor (rhs : Buf) : Buf × Buf :=
  ({ device := rhs.device, size := rhs.size, deviceMemory := rhs.deviceMemory,
     buffer := rhs.buffer },
   { device := 0, size := 0, deviceMemory := 0, buffer := 0 })

/-- `swap(Buffer&, Buffer&)` (vc.cpp:406-413). -/
def bufSwap (a b : Buf) : Buf × Buf := (b, a)

/-- `Buffer::~Buffer` (vc.cpp:383-390): the handles released, each guarded
by a null check (buffer first, then device memory). -/
def bufReleased (b : Buf) : List Nat :=
  (if b.buffer ≠ 0 then [b.buffer] else []) ++
    (if b.deviceMemory ≠ 0 then [b.deviceMemory] else [])

/-- `Buffer::operator=(Buffer rhs)` (vc.cpp:400-404) applied to a move:
`rhs` is move-constructed from the source, swapped with the destination,
and destroyed at scope exit.  Returns (new destination, new source,
handles released by the temporary's destructor). -/
def bufMoveAssign (dst src : Buf) : Buf × Buf × List Nat :=
  let moved := bufMoveCtor src
  let swapped := bufSwap dst moved.1
  (swapped.1, moved.2, bufReleased swapped.2)

/-- Handle members of a `vc::Program` (vc.cpp:231-237) plus the abstract
content of the descriptor-set writes (the bound buffer handles, slot index
= position). -/
structure ProgState where
  shaderModule : Nat
  descriptorSetLayout : Nat
  pipelineLayout : Nat
  pipeline : Nat
  descriptorPool : Nat
  descriptorSet : Nat
  boundBuffers : List Nat
  deriving DecidableEq

/-- `Program::releasePipeline` (vc.cpp:310-323): the handles destroyed in
call order (descriptor pool, pipeline, pipeline layout, descriptor-set
layout), each guarded by a null check.  Destroying the pool releases the
descriptor set allocated from it. -/
def releasePipelineHandles (s : ProgState) : List Nat :=
  (if s.descriptorPool ≠ 0 then [s.descriptorPool] else []) ++
    (if s.pipeline ≠ 0 then [s.pipeline] else []) ++
    (if s.pipelineLayout ≠ 0 then [s.pipelineLayout] else []) ++
    (if s.descriptorSetLayout ≠ 0 then [s.descriptorSetLayout] else [])

/-- `Program::initPipeline` (vc.cpp:141-227): builds a fresh descriptor-set
layout, pipeline layout, compute pipeline, descriptor pool and descriptor
set, and writes one storage-buffer descriptor per bound buffer in argument
order.  `fresh` allocates new nonzero handle tokens; the result is (new
state, next fresh token, device-level handles created — the descriptor set
is owned by the pool). -/
def initPipelineSt (s : ProgState) (buffers : List Nat) (fresh : Nat) :
    ProgState × Nat × List Nat :=
  ({ s with descriptorSetLayout := fresh + 1, pipelineLayout := fresh + 2,
            pipeline := fresh + 3, descriptorPool := fresh + 4,
            descriptorSet := fresh + 5, boundBuffers := buffers },
   fresh + 5,
   [fresh + 1, fresh + 2, fresh + 3, fresh + 4])

/-- `Program::bind` (vc.cpp:130-135): release the current pipeline
objects, then rebuild everything from scratch.  Returns (new state, next
fresh token, handles created, handles destroyed). -/
def bindProgram (s : ProgState) (buffers : List Nat) (fresh : Nat) :
    ProgState × Nat × List Nat × List Nat :=
  let destroyed := releasePipelineHandles s
  let built := initPipelineSt s buffers fresh
  (built.1, built.2.1, built.2.2, destroyed)

/-- The dispatch-relevant shape of a program state, forgetting concrete
handle identities: which members are non-null, and which buffers are bound
to which slots. -/
def progShape (s : ProgState) : Bool × Bool × Bool × Bool × Bool × Bool × List Nat :=
  (s.shaderModule != 0, s.descriptorSetLayout != 0, s.pipelineLayout != 0,
   s.pipeline != 0, s.descriptorPool != 0, s.descriptorSet != 0, s.boundBuffers)

/-- Commands recorded into the command buffer by `Program::dispatch`
(vc.cpp:334-338). -/
inductive GpuCmd where
  | bindPipeline : Nat → GpuCmd
  | bindDescriptorSets : Nat → GpuCmd
  | dispatchWork : Nat → Nat → Nat → GpuCmd
  deriving DecidableEq

/-- Host-visible queue interactions of `Program::dispatch`
(vc.cpp:341-352): a submission of a recorded command sequence, or
`vkQueueWaitIdle`. -/
inductive QueueEvent where
  | submit : List GpuCmd → QueueEvent
  | waitIdle : QueueEvent
  deriving DecidableEq

/-- `Program::dispatch(x, y, z)` (vc.cpp:325-353): record one one-shot
command sequence binding the current pipeline and descriptor set and
issuing a single compute dispatch, submit it once to the compute queue,
then block in `vkQueueWaitIdle` until the queue drains; only then does the
call return. -/
def dispatchEvents (s : ProgState) (x y z : Nat) : List QueueEvent :=
  [QueueEvent.submit [GpuCmd.bindPipeline s.pipeline,
                      GpuCmd.bindDescriptorSets s.descriptorSet,
                      GpuCmd.dispatchWork x y z],
   QueueEvent.waitIdle]

/-- Queue-drain semantics: a submission adds pending work and
`vkQueueWaitIdle` returns only once the queue is empty again. -/
def pendingAfter : Nat → List QueueEvent → Nat
  | pending, [] => pending
  | pending, QueueEvent.submit _ :: rest => pendingAfter (pending + 1) rest
  | _, QueueEvent.waitIdle :: rest => pendingAfter 0 rest

/-- Recognize a submission event. -/
def isSubmit : QueueEvent → Bool
  | QueueEvent.submit _ => true
  | QueueEvent.waitIdle => false

/-- Count the compute dispatches inside a command sequence. -/
def countDispatches : List GpuCmd → Nat
  | [] => 0
  | GpuCmd.dispatchWork _ _ _ :: rest => countDispatches rest + 1
  | _ :: rest => countDispatches rest

/- ------------------------------------------------------------------ -/
/- Theorems                                                           -/
/- ------------------------------------------------------------------ -/

theorem searchState_zero (quality : Nat → Nat) (results : Nat → Option Nat) :
    searchState quality results 0 = (initialMinLeadingZeros, 0) := rfl

theorem searchState_succ (quality : Nat → Nat) (results : Nat → Option Nat) (n : Nat) :
    searchState quality results (n + 1) =
      searchStep quality (results n) (searchState quality results n) := rfl

theorem searchStep_none (quality : Nat → Nat) (s : Nat × Nat) :
    searchStep quality none s = (s.1, (s.2 + BatchSize) % U32Mod) := rfl

theorem searchStep_some (quality : Nat → Nat) (idx : Nat) (s : Nat × Nat) :
    searchStep quality (some idx) s = (quality idx + 1, (s.2 + BatchSize) % U32Mod) := rfl

theorem thresholdAt_succ_none (quality : Nat → Nat) (results : Nat → Option Nat)
    (n : Nat) (h : results n = none) :
    thresholdAt quality results (n + 1) = thresholdAt quality results n := by
  unfold thresholdAt
  rw [searchState_succ, h, searchStep_none]

theorem thresholdAt_succ_some (quality : Nat → Nat) (results : Nat → Option Nat)
    (n idx : Nat) (h : results n = some idx) :
    thresholdAt quality results (n + 1) = quality idx + 1 := by
  unfold thresholdAt
  rw [searchState_succ, h, searchStep_some]

theorem baseAt_succ (quality : Nat → Nat) (results : Nat → Option Nat) (n : Nat) :
    baseAt quality results (n + 1) =
      (baseAt quality results n + BatchSize) % U32Mod := by
  unfold baseAt
  rw [searchState_succ]
  cases results n with
  | none => rw [searchStep_none]
  | some idx => rw [searchStep_some]

theorem nonceChar_eq_div_mod (n i : Nat) :
    nonceChar n i = dumpCharset.getD (n / 16 ^ i % 16) 0 := by
  unfold nonceChar
  have h1 : (15 : Nat) = 2 ^ 4 - 1 := by norm_num
  rw [h1, Nat.and_pow_two_sub_one_eq_mod, Nat.shiftRight_eq_div_pow]
  have h2 : (2 : Nat) ^ (4 * i) = 16 ^ i := by
    rw [Nat.pow_mul]
  rw [h2]

theorem hexVal_of_charset : ∀ d < 16, hexVal (dumpCharset.getD d 0) = d := by
  decide

theorem charset_getD_mem : ∀ d < 16, dumpCharset.getD d 0 ∈ dumpCharset := by
  decide

theorem ofNibbles_nibbleList (w : Nat) : ∀ n, ofNibbles (nibbleList w n) = n % 16 ^ w := by
  induction w with
  | zero => intro n; simp [nibbleList, ofNibbles, Nat.mod_one]
  | succ w ih =>
    intro n
    have h16 : (16 : Nat) ^ (w + 1) = 16 * 16 ^ w := pow_succ' 16 w
    simp only [nibbleList, ofNibbles, ih, h16, Nat.mod_mul]

theorem map_digit_range (w : Nat) :
    ∀ n, (List.range w).map (fun i => n / 16 ^ i % 16) = nibbleList w n := by
  induction w with
  | zero => intro n; rfl
  | succ w ih =>
    intro n
    rw [List.range_succ_eq_map, List.map_cons, List.map_map]
    have hfun : ((fun i => n / 16 ^ i % 16) ∘ (· + 1)) = (fun i => n / 16 / 16 ^ i % 16) := by
      funext i
      simp only [Function.comp_apply]
      rw [pow_succ' 16 i, ← Nat.div_div_eq_div_mul]
    rw [hfun, ih (n / 16)]
    simp [nibbleList]

theorem recoverNonce_nonceChars (n : Nat) : recoverNonce (nonceChars n) = n % U32Mod := by
  unfold recoverNonce nonceChars
  rw [List.map_map]
  have h1 : ((List.range NonceSize).map (hexVal ∘ nonceChar n)) =
      ((List.range NonceSize).map (fun i => n / 16 ^ i % 16)) := by
    apply List.map_congr_left
    intro i _
    simp only [Function.comp_apply, nonceChar_eq_div_mod]
    exact hexVal_of_charset _ (Nat.mod_lt _ (by norm_num))
  rw [h1, map_digit_range, ofNibbles_nibbleList]
  have : (16 : Nat) ^ NonceSize = U32Mod := by
    norm_num [NonceSize, U32Mod]
  rw [this]

/-- Claim C10: the host-side message derivation of `Miner::dumpResult` is
deterministic and injective: the candidate message is the prefix followed by
exactly 8 characters from the 16-symbol charset "0123456789ABCDEF", where
character `k` encodes nibble `(nonceIndex >> 4k) & 0xF`, so distinct 32-bit
nonce indices with the same prefix always produce distinct messages. -/
theorem c10_message_injective :
    (∀ pre n, dumpMessage pre n = pre ++ (List.range 8).map (nonceChar n)) ∧
    (∀ n k, nonceChar n k = dumpCharset.getD ((n >>> (4 * k)) &&& 15) 0) ∧
    dumpCharset.length = 16 ∧
    (∀ n c, c ∈ nonceChars n → c ∈ dumpCharset) ∧
    (∀ pre n₁ n₂, n₁ < U32Mod → n₂ < U32Mod →
      dumpMessage pre n₁ = dumpMessage pre n₂ → n₁ = n₂) := by
  refine ⟨fun pre n => rfl, fun n k => rfl, rfl, ?_, ?_⟩
  · intro n c hc
    rcases List.mem_map.mp hc with ⟨i, _, hi⟩
    rw [← hi, nonceChar_eq_div_mod]
    exact charset_getD_mem _ (Nat.mod_lt _ (by norm_num))
  · intro pre n₁ n₂ h₁ h₂ hmsg
    have hn : nonceChars n₁ = nonceChars n₂ :=
      List.append_cancel_left hmsg
    have := congrArg recoverNonce hn
    rw [recoverNonce_nonceChars, recoverNonce_nonceChars,
      Nat.mod_eq_of_lt h₁, Nat.mod_eq_of_lt h₂] at this
    exact this

/-- Concrete instantiation of the injectivity claim: prefix "hello/" (as
bytes) and nonce index 5. -/
theorem c10_message_injective_witness : (5 : Nat) = 5 :=
  c10_message_injective.2.2.2.2 [104, 101, 108, 108, 111, 47] 5 5
    (by norm_num [U32Mod]) (by norm_num [U32Mod]) rfl

theorem baseAt_closed (quality : Nat → Nat) (results : Nat → Option Nat) :
    ∀ n, baseAt quality results n = n * BatchSize % U32Mod := by
  intro n
  induction n with
  | zero => rfl
  | succ n ih =>
    rw [baseAt_succ, ih, Nat.mod_add_mod, Nat.succ_mul]

theorem thresholdAt_of_all_none (quality : Nat → Nat) (results : Nat → Option Nat) :
    ∀ i, (∀ k, k < i → results k = none) →
      thresholdAt quality results i = initialMinLeadingZeros := by
  intro i
  induction i with
  | zero => intro _; rfl
  | succ i ih =>
    intro h
    have hi : results i = none := h i (by omega)
    have h2 := ih (fun k hk => h k (by omega))
    rw [thresholdAt_succ_none quality results i hi]
    exact h2

/-- Claim C1: across a full search run the sequence of thresholds written
into the input region for successive batches is non-decreasing; whenever a
batch returns a non-sentinel result whose host-verified quality is `q`, the
threshold of every subsequent batch until the next improvement is exactly
`q + 1`, and a sentinel batch leaves the threshold unchanged.  The
hypothesis is the invariant the code itself asserts (miner.cpp:105): each
accepted result's verified quality is at least the threshold in force. -/
theorem c1_threshold_monotone (quality : Nat → Nat) (results : Nat → Option Nat)
    (H : ∀ n idx, results n = some idx → thresholdAt quality results n ≤ quality idx) :
    (∀ n m, n ≤ m → thresholdAt quality results n ≤ thresholdAt quality results m) ∧
    (∀ i j idx, results i = some idx → i < j →
      (∀ k, i < k → k < j → results k = none) →
      thresholdAt quality results j = quality idx + 1) ∧
    (∀ n, results n = none →
      thresholdAt quality results (n + 1) = thresholdAt quality results n) := by
  have hstep : ∀ n, thresholdAt quality results n ≤ thresholdAt quality results (n + 1) := by
    intro n
    cases hres : results n with
    | none => exact Nat.le_of_eq (thresholdAt_succ_none quality results n hres).symm
    | some idx =>
      have hq := H n idx hres
      rw [thresholdAt_succ_some quality results n idx hres]
      omega
  refine ⟨?_, ?_, ?_⟩
  · intro n m hnm
    induction hnm with
    | refl => exact Nat.le_refl _
    | step h ih => exact Nat.le_trans ih (hstep _)
  · intro i j idx hres hij hgap
    have key : ∀ j, i + 1 ≤ j → (∀ k, i < k → k < j → results k = none) →
        thresholdAt quality results j = quality idx + 1 := by
      intro j hj
      induction j, hj using Nat.le_induction with
      | base =>
        intro _
        exact thresholdAt_succ_some quality results i idx hres
      | succ j hj ih =>
        intro hg
        have hjnone : results j = none := hg j (by omega) (by omega)
        have h2 := ih (fun k hk1 hk2 => hg k hk1 (by omega))
        rw [thresholdAt_succ_none quality results j hjnone]
        exact h2
    exact key j hij hgap
  · intro n hn
    exact thresholdAt_succ_none quality results n hn

/-- Concrete run for C1: with a device that never reports a result, the
per-batch assert condition holds vacuously and the threshold sequence is
non-decreasing from batch 0 to batch 3. -/
theorem c1_threshold_monotone_witness :
    thresholdAt (fun _ => 0) (fun _ => none) 0 ≤ thresholdAt (fun _ => 0) (fun _ => none) 3 :=
  (c1_threshold_monotone (fun _ => 0) (fun _ => none)
    (fun _ _ h => nomatch h)).1 0 3 (by omega)

/-- Claim C2: before each batch the host writes the current threshold, the
nonce-index base, the prefix length and the 16 fixed prefix words into the
input region as 32-bit fields in exactly that order, and resets the result
slot to the all-ones sentinel; each dispatch uses exactly
`ceil(BatchSize / LocalSize)` = 256 work-groups; the base advances by
exactly `BatchSize` per batch, so the run covers the whole 2^32 nonce space
in `2^32 / BatchSize` batches. -/
theorem c2_batch_protocol (pre : List Nat) (quality : Nat → Nat)
    (results : Nat → Option Nat) :
    (∀ n, (inputAt pre quality results n).words =
      thresholdAt quality results n :: baseAt quality results n ::
        pre.length :: msgWords pre) ∧
    (msgWords pre).length = 16 ∧
    resultReset = sentinelU32 ∧
    dispatchGroups = (groupCount, 1, 1) ∧
    groupCount = 256 ∧
    BatchSize ≤ groupCount * LocalSize ∧
    (groupCount - 1) * LocalSize < BatchSize ∧
    (∀ n, baseAt quality results (n + 1) =
      (baseAt quality results n + BatchSize) % U32Mod) ∧
    (∀ n, n < batchCount → baseAt quality results n = n * BatchSize) ∧
    batchCount = 65536 ∧
    batchCount * BatchSize = U32Mod ∧
    (∀ v, v < U32Mod → ∃ n, n < batchCount ∧ ∃ j, j < BatchSize ∧
      v = baseAt quality results n + j) := by
  have hU : U32Mod = 4294967296 := by norm_num [U32Mod]
  have hbc : batchCount = 65536 := by norm_num [batchCount, U32Mod, BatchSize]
  have hnowrap : ∀ n, n < batchCount → baseAt quality results n = n * BatchSize := by
    intro n hn
    rw [baseAt_closed]
    apply Nat.mod_eq_of_lt
    rw [hbc] at hn
    simp only [BatchSize, hU]
    omega
  refine ⟨fun n => rfl, ?_, rfl, rfl, by norm_num [groupCount, BatchSize, LocalSize],
    by norm_num [groupCount, BatchSize, LocalSize],
    by norm_num [groupCount, BatchSize, LocalSize], ?_, hnowrap, hbc,
    by norm_num [batchCount, U32Mod, BatchSize], ?_⟩
  · simp [msgWords]
  · exact baseAt_succ quality results
  · intro v hv
    refine ⟨v / BatchSize, ?_, v % BatchSize, ?_, ?_⟩
    · rw [hbc]
      simp only [BatchSize]
      rw [hU] at hv
      omega
    · exact Nat.mod_lt _ (by norm_num [BatchSize])
    · rw [hnowrap]
      · simp only [BatchSize]
        omega
      · rw [hbc]
        simp only [BatchSize]
        rw [hU] at hv
        omega

/-- Concrete instantiation for C2: in any run, batch 3 is dispatched with
nonce-index base `3 * BatchSize`. -/
theorem c2_batch_protocol_witness :
    baseAt (fun _ => 0) (fun _ => none) 3 = 3 * BatchSize :=
  (c2_batch_protocol [] (fun _ => 0) (fun _ => none)).2.2.2.2.2.2.2.2.1 3
    (by norm_num [batchCount, U32Mod, BatchSize])

/-- Claim C6 counterexample: in an `NDEBUG` build (`assertActive = false`)
a batch returning nonce index 5 whose verified quality 0 is below the
active threshold 16 is not surfaced at all: the collect phase returns
normally (and even lowers the threshold to 1), refuting "in every build
configuration of the program". -/
theorem c6_counterexample :
    (0 : Nat) < 16 ∧
    collectStep false (fun _ => 0) 16 (some 5) = .ok 1 ∧
    collectStep false (fun _ => 0) 16 (some 5) ≠ .assertFailed := by
  refine ⟨by norm_num, rfl, by decide⟩

/-- Claim C6 amended: when a batch returns a non-sentinel result whose
verified quality is below the batch's threshold, the violation aborts via
`assert` only in builds with assertions enabled (`NDEBUG` undefined); in
`NDEBUG` builds it is silently ignored and the threshold is still lowered
to `quality + 1`. -/
theorem c6_assert_surfacing (quality : Nat → Nat) (threshold idx : Nat)
    (h : quality idx < threshold) :
    collectStep true quality threshold (some idx) = .assertFailed ∧
    collectStep false quality threshold (some idx) = .ok (quality idx + 1) := by
  constructor
  · simp [collectStep, h]
  · simp [collectStep]

/-- Concrete instantiation for C6 amended: quality 0 against threshold 16
with assertions enabled aborts. -/
theorem c6_assert_surfacing_witness :
    collectStep true (fun _ => 0) 16 (some 5) = .assertFailed :=
  (c6_assert_surfacing (fun _ => 0) 16 5 (by norm_num)).1

/-- Claim C9 counterexample: the code appends a nonce of 8 characters from
the 16-symbol hexadecimal charset and starts the run at threshold 16
(rejecting qualities below 16), not a 4-character nonce from a 64-symbol
alphabet with an accept-anything threshold. -/
theorem c9_counterexample :
    (dumpMessage [104, 101, 108, 108, 111, 47] 0).length = 6 + NonceSize ∧
    NonceSize = 8 ∧ dumpCharset.length = 16 ∧ initialMinLeadingZeros = 16 ∧
    ¬(NonceSize = 4 ∧ dumpCharset.length = 64 ∧ initialMinLeadingZeros = 0) := by
  decide

/-- Claim C9 amended: in the end-to-end search with prefix "hello/" (bytes
104 101 108 108 111 47), the candidate message is the prefix followed by a
nonce of width 8 characters from the 16-symbol charset "0123456789ABCDEF";
the starting threshold is 16; the first batch that reports a nonce yields a
verified quality ≥ 16 (hence ≥ 0), and the threshold used for the following
batch equals that quality + 1.  `hassert` is the invariant the code asserts
at the reporting batch (miner.cpp:105). -/
theorem c9_end_to_end (quality : Nat → Nat) (results : Nat → Option Nat)
    (i idx : Nat) (hres : results i = some idx)
    (hfirst : ∀ k, k < i → results k = none)
    (hassert : thresholdAt quality results i ≤ quality idx) :
    dumpMessage [104, 101, 108, 108, 111, 47] idx =
      [104, 101, 108, 108, 111, 47] ++ nonceChars idx ∧
    (nonceChars idx).length = 8 ∧
    (∀ c ∈ nonceChars idx, c ∈ dumpCharset) ∧
    thresholdAt quality results 0 = 16 ∧
    thresholdAt quality results i = 16 ∧
    16 ≤ quality idx ∧
    thresholdAt quality results (i + 1) = quality idx + 1 := by
  have hthr := thresholdAt_of_all_none quality results i hfirst
  refine ⟨rfl, by simp [nonceChars, NonceSize], ?_, rfl, hthr, ?_, ?_⟩
  · intro c hc
    rcases List.mem_map.mp hc with ⟨k, _, hk⟩
    rw [← hk, nonceChar_eq_div_mod]
    exact charset_getD_mem _ (Nat.mod_lt _ (by norm_num))
  · rw [hthr] at hassert
    exact hassert
  · exact thresholdAt_succ_some quality results i idx hres

/-- Concrete run for C9 amended: the device reports nonce index 7 in batch
0 with verified quality 20, and batch 1 then runs at threshold 21. -/
theorem c9_end_to_end_witness :
    thresholdAt (fun _ => 20) (fun n => if n = 0 then some 7 else none) 1 = 21 :=
  (c9_end_to_end (fun _ => 20) (fun n => if n = 0 then some 7 else none) 0 7
    rfl (fun k hk => absurd hk (Nat.not_lt_zero k)) (by decide)).2.2.2.2.2.2

theorem findFirst_some {α : Type} (p : α → Bool) :
    ∀ (l : List α) (i : Nat), findFirst p l = some i →
      i < l.length ∧ ∃ x, l[i]? = some x ∧ p x = true ∧
        ∀ j y, j < i → l[j]? = some y → p y = false := by
  intro l
  induction l with
  | nil => intro i h; simp [findFirst] at h
  | cons a as ih =>
    intro i h
    simp only [findFirst] at h
    by_cases hp : p a
    · rw [if_pos hp] at h
      cases h
      exact ⟨by simp, a, by simp, hp, fun j y hj _ => absurd hj (Nat.not_lt_zero j)⟩
    · rw [if_neg hp] at h
      cases hfa : findFirst p as with
      | none => rw [hfa] at h; simp at h
      | some k =>
        rw [hfa] at h
        simp only [Option.map_some', Option.some.injEq] at h
        obtain ⟨hk, x, hx, hpx, hjs⟩ := ih k hfa
        subst h
        refine ⟨by simpa using hk, x, by simpa using hx, hpx, ?_⟩
        intro j y hj hy
        cases j with
        | zero =>
          simp only [List.getElem?_cons_zero, Option.some.injEq] at hy
          rw [← hy]
          exact Bool.eq_false_iff.mpr hp
        | succ j' =>
          exact hjs j' y (by omega) (by simpa using hy)

theorem findFirst_none {α : Type} (p : α → Bool) :
    ∀ l : List α, findFirst p l = none → ∀ x ∈ l, p x = false := by
  intro l
  induction l with
  | nil => intro _ x hx; simp at hx
  | cons a as ih =>
    intro h x hx
    simp only [findFirst] at h
    by_cases hp : p a
    · rw [if_pos hp] at h; simp at h
    · rw [if_neg hp] at h
      rcases List.mem_cons.mp hx with rfl | hmem
      · exact Bool.eq_false_iff.mpr hp
      · refine ih ?_ x hmem
        cases hfa : findFirst p as with
        | none => rfl
        | some k => rw [hfa] at h; simp at h

theorem findFirst_eq_none {α : Type} (p : α → Bool) :
    ∀ l : List α, (∀ x ∈ l, p x = false) → findFirst p l = none := by
  intro l
  induction l with
  | nil => intro _; rfl
  | cons a as ih =>
    intro h
    have hpa : p a = false := h a (by simp)
    simp only [findFirst, hpa, Bool.false_eq_true, if_false]
    rw [ih (fun x hx => h x (by simp [hx]))]
    rfl

/-- Claim C3: for every group-count triple, `Program::dispatch` records
exactly one one-shot command sequence — bind the current pipeline, bind
the current binding set, a single compute dispatch with those counts —
submits it exactly once to the context's queue, and does not return before
`vkQueueWaitIdle` has fully drained the queue, so bound result buffers are
readable the moment it returns. -/
theorem c3_dispatch_synchronous (s : ProgState) (x y z : Nat) :
    dispatchEvents s x y z =
      [QueueEvent.submit [GpuCmd.bindPipeline s.pipeline,
                          GpuCmd.bindDescriptorSets s.descriptorSet,
                          GpuCmd.dispatchWork x y z],
       QueueEvent.waitIdle] ∧
    ((dispatchEvents s x y z).filter isSubmit).length = 1 ∧
    (∀ cmds, QueueEvent.submit cmds ∈ dispatchEvents s x y z →
      countDispatches cmds = 1 ∧ GpuCmd.dispatchWork x y z ∈ cmds) ∧
    (dispatchEvents s x y z).getLast? = some QueueEvent.waitIdle ∧
    pendingAfter 0 (dispatchEvents s x y z) = 0 := by
  refine ⟨rfl, rfl, ?_, rfl, rfl⟩
  intro cmds hc
  simp only [dispatchEvents, List.mem_cons, List.not_mem_nil, or_false] at hc
  rcases hc with hc | hc
  · rcases QueueEvent.submit.inj hc with rfl
    exact ⟨rfl, by simp⟩
  · exact absurd hc (by simp)

/-- Concrete instantiation for C3: the dispatch of a batch of the miner
(256 work-groups on one axis) leaves no pending work when it returns. -/
theorem c3_dispatch_synchronous_witness :
    pendingAfter 0 (dispatchEvents
      { shaderModule := 1, descriptorSetLayout := 2, pipelineLayout := 3,
        pipeline := 4, descriptorPool := 5, descriptorSet := 6,
        boundBuffers := [7, 8] } 256 1 1) = 0 :=
  (c3_dispatch_synchronous
    { shaderModule := 1, descriptorSetLayout := 2, pipelineLayout := 3,
      pipeline := 4, descriptorPool := 5, descriptorSet := 6,
      boundBuffers := [7, 8] } 256 1 1).2.2.2.2

/-- Claim C4 counterexample: for the queue-family table
[graphics-and-compute, compute-only], `Device` construction (through
`findComputeQueueFamily`, vc.cpp:430) picks index 0, while the claimed
rule — prefer a compute-without-graphics family — picks index 1. -/
theorem c4_counterexample :
    findComputeQueueFamily [3, 2] = 0 ∧
    claimedQueueFamilyChoice [3, 2] = 1 ∧
    findComputeQueueFamily [3, 2] ≠ claimedQueueFamilyChoice [3, 2] := by
  refine ⟨rfl, rfl, by decide⟩

/-- Claim C4 amended: `ExecutionContext` construction (`vc::Device`)
chooses the FIRST queue family whose flags include the compute bit,
regardless of graphics; when no family has compute it keeps the `~0u`
sentinel, in which case no device, command pool, command buffer or queue
is created.  The compute-only preference stated by the claim exists only
in the standalone demo `getBestComputeQueue` (main.cpp:37-64), whose
behaviour agrees with the claimed rule whenever it finds a family. -/
theorem c4_queue_family_selection (families : List Nat)
    (hlen : families.length < sentinelU32) :
    (∀ i, findComputeQueueFamily families = i → i ≠ sentinelU32 →
      i < families.length ∧ ∃ f, families[i]? = some f ∧ hasComputeBit f = true ∧
        ∀ j g, j < i → families[j]? = some g → hasComputeBit g = false) ∧
    (findComputeQueueFamily families = sentinelU32 →
      ∀ f ∈ families, hasComputeBit f = false) ∧
    (findComputeQueueFamily families = sentinelU32 →
      (mkDevice families).device = 0 ∧ (mkDevice families).commandPool = 0 ∧
      (mkDevice families).commandBuffer = 0 ∧ (mkDevice families).computeQueue = 0) ∧
    (findComputeQueueFamily families ≠ sentinelU32 →
      (mkDevice families).device ≠ 0 ∧ (mkDevice families).computeQueue ≠ 0) ∧
    (∀ i, getBestComputeQueue families = some i →
      claimedQueueFamilyChoice families = i) := by
  refine ⟨?_, ?_, ?_, ?_, ?_⟩
  · intro i hi hne
    unfold findComputeQueueFamily at hi
    cases hfa : findFirst hasComputeBit families with
    | none => rw [hfa] at hi; exact absurd hi.symm hne
    | some k =>
      rw [hfa] at hi
      have hik : k = i := hi
      subst hik
      exact findFirst_some hasComputeBit families k hfa
  · intro hsent
    unfold findComputeQueueFamily at hsent
    cases hfa : findFirst hasComputeBit families with
    | none => exact findFirst_none hasComputeBit families hfa
    | some k =>
      rw [hfa] at hsent
      have hks : k = sentinelU32 := hsent
      have hk := (findFirst_some hasComputeBit families k hfa).1
      omega
  · intro hsent
    simp [mkDevice, hsent]
  · intro hne
    simp [mkDevice, hne]
  · intro i hi
    unfold getBestComputeQueue at hi
    unfold claimedQueueFamilyChoice
    cases hco : findFirst computeOnlyBit families with
    | some k =>
      rw [hco] at hi
      obtain rfl : k = i := Option.some.inj hi
      rfl
    | none =>
      rw [hco] at hi
      cases hcc : findFirst hasComputeBit families with
      | some k =>
        rw [hcc] at hi
        obtain rfl : k = i := Option.some.inj hi
        rfl
      | none =>
        rw [hcc] at hi
        exact absurd hi (by simp)

/-- Concrete instantiation for C4 amended: a device whose only queue
family is graphics-only is left inert — no device, pool, command buffer or
queue handle is created. -/
theorem c4_queue_family_selection_witness :
    (mkDevice [1]).device = 0 ∧ (mkDevice [1]).commandPool = 0 ∧
    (mkDevice [1]).commandBuffer = 0 ∧ (mkDevice [1]).computeQueue = 0 :=
  (c4_queue_family_selection [1]
    (by norm_num [sentinelU32, U32Mod])).2.2.1 (by decide)

/-- Claim C5: `Buffer` construction selects the first memory type in table
order whose property flags include both host-visible and host-coherent and
whose backing heap size is at least the requested size (`<=`, so exact-fit
heaps are accepted); when no memory type qualifies — in particular when
the request exceeds every heap of a well-formed table — both handles stay
VK_NULL_HANDLE and the constructor returns normally no matter how the
(unreached) Vulkan calls would have behaved. -/
theorem c5_memory_selection (types : List MemoryType) (heapSizes : List Nat)
    (size : Nat) (hlen : types.length < sentinelU32)
    (hheap : ∀ t ∈ types, t.heapIndex < heapSizes.length) :
    (∀ i, findHostVisibleMemory types heapSizes size = i → i ≠ sentinelU32 →
      i < types.length ∧ ∃ t, types[i]? = some t ∧
        memoryTypeFits heapSizes size t = true ∧
        ∀ j u, j < i → types[j]? = some u →
          memoryTypeFits heapSizes size u = false) ∧
    (findHostVisibleMemory types heapSizes size = sentinelU32 →
      ∀ t ∈ types, memoryTypeFits heapSizes size t = false) ∧
    ((∀ h ∈ heapSizes, h < size) →
      findHostVisibleMemory types heapSizes size = sentinelU32 ∧
      ∀ allocOk createOk bindOk,
        mkBuffer types heapSizes size allocOk createOk bindOk =
          CtorOutcome.ok { size := size, deviceMemory := 0, buffer := 0 }) ∧
    memoryTypeFits [100] 100 { propertyFlags := 3, heapIndex := 0 } = true := by
  refine ⟨?_, ?_, ?_, by decide⟩
  · intro i hi hne
    unfold findHostVisibleMemory at hi
    cases hfa : findFirst (memoryTypeFits heapSizes size) types with
    | none => rw [hfa] at hi; exact absurd hi.symm hne
    | some k =>
      rw [hfa] at hi
      have hik : k = i := hi
      subst hik
      exact findFirst_some (memoryTypeFits heapSizes size) types k hfa
  · intro hsent
    unfold findHostVisibleMemory at hsent
    cases hfa : findFirst (memoryTypeFits heapSizes size) types with
    | none => exact findFirst_none (memoryTypeFits heapSizes size) types hfa
    | some k =>
      rw [hfa] at hsent
      have hks : k = sentinelU32 := hsent
      have hk := (findFirst_some (memoryTypeFits heapSizes size) types k hfa).1
      omega
  · intro hbig
    have hfit : ∀ t ∈ types, memoryTypeFits heapSizes size t = false := by
      intro t ht
      have hidx := hheap t ht
      have hmem : heapSizes.getD t.heapIndex 0 ∈ heapSizes := by
        rw [List.getD_eq_getElem?_getD]
        rw [List.getElem?_eq_getElem hidx]
        exact List.getElem_mem hidx
      have hlt : heapSizes.getD t.heapIndex 0 < size := hbig _ hmem
      have hnle : ¬(size ≤ heapSizes.getD t.heapIndex 0) := Nat.not_le.mpr hlt
      have hC : decide (size ≤ heapSizes.getD t.heapIndex 0) = false :=
        decide_eq_false hnle
      unfold memoryTypeFits
      rw [hC, Bool.and_false]
    have hnone : findFirst (memoryTypeFits heapSizes size) types = none :=
      findFirst_eq_none _ types hfit
    have hsent : findHostVisibleMemory types heapSizes size = sentinelU32 := by
      unfold findHostVisibleMemory
      rw [hnone]
    refine ⟨hsent, ?_⟩
    intro allocOk createOk bindOk
    simp [mkBuffer, hsent]

/-- Concrete instantiation for C5: a 128-byte request against a single
host-visible, host-coherent type backed by a 64-byte heap leaves the
buffer inert (both handles null) and the constructor returns normally. -/
theorem c5_memory_selection_witness :
    mkBuffer [{ propertyFlags := 3, heapIndex := 0 }] [64] 128 true true true =
      CtorOutcome.ok { size := 128, deviceMemory := 0, buffer := 0 } :=
  ((c5_memory_selection [{ propertyFlags := 3, heapIndex := 0 }] [64] 128
    (by norm_num [sentinelU32, U32Mod]) (by decide)).2.2.1
    (by decide)).2 true true true

/-- Claim C7: moving a `vc::Buffer` (by move construction or move
assignment) transfers the device pointer, size, memory handle and buffer
handle to the destination and leaves the source inert (null handles, zero
size), so destroying both objects releases each backing handle exactly
once (the inert state releases nothing). -/
theorem c7_buffer_move_ownership (b dst src : Buf) :
    (bufMoveCtor b).1 = b ∧
    (bufMoveCtor b).2 = inertBuf ∧
    bufReleased inertBuf = [] ∧
    bufReleased (bufMoveCtor b).1 ++ bufReleased (bufMoveCtor b).2 = bufReleased b ∧
    (bufMoveAssign dst src).1 = src ∧
    (bufMoveAssign dst src).2.1 = inertBuf ∧
    (bufMoveAssign dst src).2.2 = bufReleased dst ∧
    bufReleased (bufMoveAssign dst src).1 ++
        bufReleased (bufMoveAssign dst src).2.1 ++
        (bufMoveAssign dst src).2.2 =
      bufReleased src ++ bufReleased dst := by
  refine ⟨rfl, rfl, rfl, ?_, rfl, rfl, rfl, ?_⟩
  · show bufReleased b ++ bufReleased inertBuf = bufReleased b
    simp [inertBuf, bufReleased]
  · show bufReleased src ++ bufReleased inertBuf ++ bufReleased dst =
      bufReleased src ++ bufReleased dst
    simp [inertBuf, bufReleased]

/-- Claim C8: calling `Program::bind` twice in succession with the same
buffer arguments is idempotent: the second call first destroys every
pipeline, pipeline layout, binding-set layout and binding pool created by
the first call (exactly those handles, none leaked), rebuilds them from
scratch, and leaves the program in an equivalent dispatchable state — the
same members non-null and the same buffers bound to the same slots. -/
theorem c8_bind_rebuild_idempotent (s : ProgState) (buffers : List Nat) (fresh : Nat) :
    (bindProgram (bindProgram s buffers fresh).1 buffers
        (bindProgram s buffers fresh).2.1).2.2.2.Perm
      (bindProgram s buffers fresh).2.2.1 ∧
    progShape (bindProgram (bindProgram s buffers fresh).1 buffers
        (bindProgram s buffers fresh).2.1).1 =
      progShape (bindProgram s buffers fresh).1 ∧
    (bindProgram s buffers fresh).1.boundBuffers = buffers ∧
    (bindProgram s buffers fresh).1.descriptorSetLayout ≠ 0 ∧
    (bindProgram s buffers fresh).1.pipelineLayout ≠ 0 ∧
    (bindProgram s buffers fresh).1.pipeline ≠ 0 ∧
    (bindProgram s buffers fresh).1.descriptorPool ≠ 0 ∧
    (bindProgram s buffers fresh).1.descriptorSet ≠ 0 := by
  refine ⟨?_, ?_, rfl, by simp [bindProgram, initPipelineSt],
    by simp [bindProgram, initPipelineSt], by simp [bindProgram, initPipelineSt],
    by simp [bindProgram, initPipelineSt], by simp [bindProgram, initPipelineSt]⟩
  · have hred : (bindProgram (bindProgram s buffers fresh).1 buffers
        (bindProgram s buffers fresh).2.1).2.2.2 =
        [fresh + 4, fresh + 3, fresh + 2, fresh + 1] := by
      simp [bindProgram, initPipelineSt, releasePipelineHandles]
    have hcre : (bindProgram s buffers fresh).2.2.1 =
        [fresh + 1, fresh + 2, fresh + 3, fresh + 4] := rfl
    rw [hred, hcre]
    have hperm := List.reverse_perm [fresh + 1, fresh + 2, fresh + 3, fresh + 4]
    simpa using hperm
  · simp [bindProgram, initPipelineSt, progShape]
